import Mathlib

/-!
# Verification of the broomstick environment-cleaner core

A shallow embedding of the core of `broomstick.py`: the path classifier,
the discovery deduplication logic, the package-analysis engine, the
bounded recursive environment scan, the fail-soft package probe, and the
modal TUI navigation state machine, together with theorems settling the
behavioural claims about them.

Conventions used throughout the embedding:
* Paths are plain strings, assumed to already be normalized absolute
  paths, so `os.path.abspath` is the identity on them.  Where the source
  resolves symlinks (`os.path.realpath`), the resolution function is an
  explicit parameter.
* Python integers that the program provably keeps non-negative (cursor,
  scroll offset, indices) are modelled as `Nat`; every subtraction site
  is guarded exactly as in the source (`max(0, ...)` clamps).
* Out-of-process effects (subprocess runs, `shutil.rmtree`) are modelled
  by explicit outcome parameters (oracles) supplied to the functions.
-/

namespace Broomstick

/-! ## Configuration constants (broomstick.py lines 42-63) -/

/-- `SYSTEM_PYTHON_PATHS`: the fixed protected-prefix list. -/
def SYSTEM_PYTHON_PATHS : List String :=
  ["/usr/bin/python", "/usr/bin/python2", "/usr/bin/python3",
   "/System/Library/Frameworks/Python.framework",
   "/Library/Frameworks/Python.framework",
   "C:\\Windows\\System32", "C:\\Python"]

/-- `PROJECT_VENV_NAMES`: directory basenames that denote a project-local venv. -/
def PROJECT_VENV_NAMES : List String := [".venv", "venv", "env", ".env", "virtualenv"]

/-! ## Path utilities (broomstick.py lines 109-135) -/

/-- Character-list prefix test (structurally recursive so that concrete
instances evaluate inside the kernel). -/
def listIsPrefix : List Char → List Char → Bool
  | [], _ => true
  | _ :: _, [] => false
  | a :: as, b :: bs => a == b && listIsPrefix as bs

/-- Python's `str.startswith`. -/
def pyStartsWith (hay pre : String) : Bool :=
  listIsPrefix pre.data hay.data

/-- Python's `str.lower` (ASCII model, sufficient for the paths involved). -/
def pyLower (s : String) : String :=
  ⟨s.data.map Char.toLower⟩

/-- Split a character list on a separator character. -/
def splitOnChar (sep : Char) : List Char → List (List Char)
  | [] => [[]]
  | c :: cs =>
    if c == sep then [] :: splitOnChar sep cs
    else
      match splitOnChar sep cs with
      | [] => [[c]]
      | h :: t => (c :: h) :: t

/-- The `/`-separated components of a path. -/
def pathParts (path : String) : List String :=
  (splitOnChar '/' path.data).map fun cs => ⟨cs⟩

/-- `is_system_path(path)`: true iff the absolute path starts with an entry of
`SYSTEM_PYTHON_PATHS`.  The source first applies `os.path.abspath`; inputs of
the model are already normalized absolute paths, on which `abspath` is the
identity. -/
def is_system_path (path : String) : Bool :=
  SYSTEM_PYTHON_PATHS.any fun sp => pyStartsWith path sp

/-- `os.path.basename` on a normalized path: the last `/`-separated component. -/
def basename (path : String) : String :=
  ((pathParts path).getLast?).getD ""

/-- `get_project_name(venv_path)`: the parent directory's name when the venv
directory's own basename is one of `PROJECT_VENV_NAMES`, the basename itself
otherwise (`Path(p).name` / `Path(p).parent.name` on normalized paths). -/
def get_project_name (venvPath : String) : String :=
  let parts := pathParts venvPath
  let nm := parts.getLast?.getD ""
  if nm ∈ PROJECT_VENV_NAMES then (parts.dropLast.getLast?).getD "" else nm

/-! ## Manager classification (broomstick.py lines 161-181 and 291-322)

`PythonInterpreter._detect_info` and `VirtualEnv._detect_info` assign the
manager tag by an if/elif chain of substring tests on the lowercased path. -/

/-- Python's `needle in haystack` substring test. -/
def listIsInfix (needle : List Char) : List Char → Bool
  | [] => listIsPrefix needle []
  | b :: bs => listIsPrefix needle (b :: bs) || listIsInfix needle bs

/-- Python's `needle in haystack` on strings. -/
def strContains (hay needle : String) : Bool :=
  listIsInfix needle.data hay.data

/-- The manager-tag chain of `PythonInterpreter._detect_info`
(broomstick.py lines 167-181). -/
def interp_detect_manager (path : String) : String :=
  let pl := pyLower path
  if strContains pl ".pyenv" then "pyenv"
  else if strContains pl ".asdf" then "asdf"
  else if strContains pl "conda" || strContains pl "miniconda" || strContains pl "anaconda" then
    "conda"
  else if strContains pl "homebrew" || strContains pl "cellar" then "homebrew"
  else if strContains pl "uv" then "uv"
  else if is_system_path path then "system"
  else "unknown"

/-- The manager-tag chain of `VirtualEnv._detect_info`
(broomstick.py lines 304-322). -/
def venv_detect_manager (path : String) : String :=
  let pl := pyLower path
  if strContains pl ".pyenv" then "pyenv"
  else if strContains pl "pipx" then "pipx"
  else if strContains pl "poetry" then "poetry"
  else if strContains pl "conda" || strContains pl "miniconda" || strContains pl "anaconda" then
    "conda"
  else if strContains pl "virtualenvs" || strContains pl "pipenv" then "pipenv"
  else if strContains pl "hatch" then "hatch"
  else if strContains pl "pdm" then "pdm"
  else if strContains pl "uv" then "uv"
  else "venv"

/-- An ordered classification rule: a predicate on the path and the tag it
assigns. -/
def ManagerRule : Type := (String → Bool) × String

/-- First-match evaluation of an ordered rule list, with a final fallback tag. -/
def applyRules (rules : List ManagerRule) (fallback : String) (path : String) : String :=
  match rules with
  | [] => fallback
  | (p, tag) :: rest => if p path then tag else applyRules rest fallback path

/-- The interpreter rule list, in source order. -/
def interpRules : List ManagerRule :=
  [(fun p => strContains (pyLower p) ".pyenv", "pyenv"),
   (fun p => strContains (pyLower p) ".asdf", "asdf"),
   (fun p => strContains (pyLower p) "conda" || strContains (pyLower p) "miniconda" ||
             strContains (pyLower p) "anaconda", "conda"),
   (fun p => strContains (pyLower p) "homebrew" || strContains (pyLower p) "cellar", "homebrew"),
   (fun p => strContains (pyLower p) "uv", "uv"),
   (fun p => is_system_path p, "system")]

/-- The virtual-environment rule list, in source order. -/
def venvRules : List ManagerRule :=
  [(fun p => strContains (pyLower p) ".pyenv", "pyenv"),
   (fun p => strContains (pyLower p) "pipx", "pipx"),
   (fun p => strContains (pyLower p) "poetry", "poetry"),
   (fun p => strContains (pyLower p) "conda" || strContains (pyLower p) "miniconda" ||
             strContains (pyLower p) "anaconda", "conda"),
   (fun p => strContains (pyLower p) "virtualenvs" || strContains (pyLower p) "pipenv", "pipenv"),
   (fun p => strContains (pyLower p) "hatch", "hatch"),
   (fun p => strContains (pyLower p) "pdm", "pdm"),
   (fun p => strContains (pyLower p) "uv", "uv")]

/-! ## Discovery deduplication (broomstick.py lines 198-250 and 393-462)

Both `find_python_interpreters` and `find_venvs` keep one `found_paths` set
shared by all their candidate sources, and append a record exactly when the
record's key is not yet in the set.  The record stored carries that key as its
path.  The candidate paths produced by the sources are modelled as one
concatenated list; the key function differs between the two discoverers:
interpreters use `os.path.abspath(os.path.realpath(p))`, venvs use
`os.path.abspath(p)` only. -/

/-- The shared found-set fold: emit `canon r` for each raw candidate `r` whose
key is not already in `found`. -/
def dedupKeys (canon : String → String) (found : List String) :
    List String → List String
  | [] => []
  | r :: rs =>
    let k := canon r
    if k ∈ found then dedupKeys canon found rs
    else k :: dedupKeys canon (k :: found) rs

/-- The record keys produced by `find_python_interpreters`: dedup key is the
symlink-resolved absolute path (`realpath`, passed explicitly; `abspath` is the
identity on its output which is already absolute). -/
def find_python_interpreters_keys (realpath : String → String) (raws : List String) :
    List String :=
  dedupKeys realpath [] raws

/-- The record keys produced by `find_venvs`: dedup key is the absolute path of
the candidate; `find_venvs` never calls `realpath`. -/
def find_venvs_keys (raws : List String) : List String :=
  dedupKeys (fun p => p) [] raws

/-! ## Package analysis (broomstick.py lines 256-513)

`PackageAnalyzer._build_map` folds every `(version, venv)` of every
environment's package list into `package_map`, a `defaultdict(list)` keyed by
the case-folded package name.  The owning environment is identified here by
its index in the analyzer's environment list. -/

/-- `Package` (broomstick.py lines 256-269). -/
structure Pkg where
  name : String
  version : String
  sizeBytes : Nat := 0
deriving DecidableEq

/-- A `package_map` entry list: `(version, owning environment index)`. -/
def Installs : Type := List (String × Nat)

/-- Append an install entry to the list held at key `k`, or create the key
(`defaultdict(list)` behaviour; keys stay unique and in first-seen order). -/
def addEntry (m : List (String × List (String × Nat))) (k : String) (e : String × Nat) :
    List (String × List (String × Nat)) :=
  match m with
  | [] => [(k, [e])]
  | (k2, l) :: rest =>
    if k2 = k then (k2, l ++ [e]) :: rest else (k2, l) :: addEntry rest k e

/-- `PackageAnalyzer._build_map` (broomstick.py lines 476-484): environments
are given by their package lists, in analyzer order. -/
def build_map (envs : List (List Pkg)) : List (String × List (String × Nat)) :=
  (envs.enum).foldl
    (fun m ie => ie.2.foldl (fun m2 p => addEntry m2 (pyLower p.name) (p.version, ie.1)) m)
    []

/-- `PackageAnalyzer.get_duplicates` (broomstick.py lines 486-492): entries of
the map whose install list has length greater than one. -/
def get_duplicates (m : List (String × List (String × Nat))) :
    List (String × List (String × Nat)) :=
  m.filter fun e => decide (1 < e.2.length)

/-- `PackageAnalyzer.get_version_conflicts` (broomstick.py lines 494-501):
entries whose set of distinct versions has more than one element. -/
def get_version_conflicts (m : List (String × List (String × Nat))) :
    List (String × List String) :=
  m.filterMap fun e =>
    let vs := (e.2.map Prod.fst).dedup
    if 1 < vs.length then some (e.1, vs) else none

/-- The package names reported by `get_duplicates`. -/
def dupNames (m : List (String × List (String × Nat))) : List String :=
  (get_duplicates m).map Prod.fst

/-- The package names reported by `get_version_conflicts`. -/
def conflictNames (m : List (String × List (String × Nat))) : List String :=
  (get_version_conflicts m).map Prod.fst

/-- First-entry association lookup into `package_map`. -/
def lookupInstalls (m : List (String × List (String × Nat))) (k : String) :
    Option (List (String × Nat)) :=
  match m with
  | [] => none
  | (k2, l) :: rest => if k2 = k then some l else lookupInstalls rest k

/-- The number of distinct environments owning an entry for key `k`; this
formalises the claim's "owned by exactly one environment". -/
def ownerCount (m : List (String × List (String × Nat))) (k : String) : Nat :=
  (((lookupInstalls m k).getD []).map Prod.snd).dedup.length

/-! ## The bounded recursive scan (broomstick.py lines 380-442)

The filesystem subtree below the scan root is modelled as a finite tree of
directories; `files` lists the marker-relevant relative file paths present
inside a directory.  `scan_dir(root, depth)` returns when `depth > max_depth`
and recurses with `depth + 1`; the model replaces the pair
`(max_depth, depth)` by the remaining budget `fuel = max_depth + 1 - depth`,
so the Python call `scan_dir(scan_root, 0)` is `scanFuel (max_depth + 1)
scan_root base`. -/

/-- A directory: its name, the marker-relevant files it directly contains
(as relative paths such as `"bin/activate"`), and its subdirectories. -/
inductive FTree : Type where
  | mk (name : String) (files : List String) (children : List FTree)

def FTree.name : FTree → String
  | .mk n _ _ => n

def FTree.files : FTree → List String
  | .mk _ fs _ => fs

def FTree.children : FTree → List FTree
  | .mk _ _ cs => cs

/-- `is_venv(path)` (broomstick.py lines 380-391): the directory exists and
contains one of the three marker files. -/
def is_venv (t : FTree) : Bool :=
  ["pyvenv.cfg", "bin/activate", "Scripts/activate.bat"].any fun m => m ∈ t.files

/-- The skip conditions of `scan_dir` (broomstick.py lines 426-430): hidden
directories not named like a project venv, and the fixed exclude list. -/
def skipDir (name : String) : Bool :=
  (pyStartsWith name "." && !(name ∈ PROJECT_VENV_NAMES)) ||
  name ∈ ["node_modules", "Library", "Applications", ".git", "__pycache__"]

/-- `scan_dir` (broomstick.py lines 416-442) with the depth counter replaced
by the remaining budget `fuel = max_depth + 1 - depth`: at `fuel = 0` the
Python guard `depth > max_depth` fires and nothing is scanned.  Results are
the recorded venv paths, as segment lists extending `base`. -/
def scanFuel (fuel : Nat) (t : FTree) (base : List String) : List (List String) :=
  match fuel with
  | 0 => []
  | fuel2 + 1 =>
    t.children.flatMap fun c =>
      if skipDir c.name then []
      else if is_venv c then [base ++ [c.name]]
      else scanFuel fuel2 c (base ++ [c.name])

/-- Well-formedness of the modelled filesystem down to a given depth: sibling
directory names are distinct (true of any real filesystem). -/
def wfFuel (fuel : Nat) (t : FTree) : Bool :=
  match fuel with
  | 0 => true
  | fuel2 + 1 =>
    (t.children.map FTree.name).Nodup && t.children.all fun c => wfFuel fuel2 c

/-- A result list is prefix-free when no reported path lies strictly inside
another reported path: the scan treats environments as leaves. -/
def PrefixFree (l : List (List String)) : Prop :=
  l.Pairwise fun p q => ¬ p <+: q ∧ ¬ q <+: p

/-! ## The package probe (broomstick.py lines 330-348)

`VirtualEnv.probe_packages` runs `pip list --format=json` and parses its
stdout.  The subprocess outcome is an explicit parameter: either a raised
`subprocess.SubprocessError`/`FileNotFoundError` (which includes timeouts), or
a completed run with a return code and a stdout whose JSON parse is given
(`none` models a `json.JSONDecodeError` from `json.loads`).  The subsequent
comprehension `[Package(p['name'], p['version']) for p in pkg_list]` is
modelled by Python's iteration and subscript semantics on JSON values; the
`TypeError`/`KeyError` they can raise are NOT in the `except` clause of the
source and therefore propagate. -/

/-- A parsed JSON value. -/
inductive JVal : Type where
  | null
  | bool (b : Bool)
  | num (n : Int)
  | str (s : String)
  | arr (items : List JVal)
  | obj (fields : List (String × JVal))

/-- Exceptions the comprehension can raise. -/
inductive PyErr : Type where
  | typeError
  | keyError (k : String)
deriving DecidableEq

/-- Python iteration over a JSON value: lists yield elements, dicts yield
their keys, strings yield their characters; other values raise `TypeError`. -/
def jIter : JVal → Except PyErr (List JVal)
  | .arr items => .ok items
  | .obj fields => .ok (fields.map fun kv => .str kv.1)
  | .str s => .ok (s.toList.map fun c => .str (String.singleton c))
  | _ => .error .typeError

/-- Python subscript `p[k]` with a string key: dict lookup (raising `KeyError`
when absent); any non-dict raises `TypeError`. -/
def jSubscript (v : JVal) (k : String) : Except PyErr JVal :=
  match v with
  | .obj fields =>
    match fields.lookup k with
    | some x => .ok x
    | none => .error (.keyError k)
  | _ => .error .typeError

/-- The comprehension `[Package(p['name'], p['version']) for p in pkg_list]`. -/
def extractPackages (j : JVal) : Except PyErr (List (JVal × JVal)) := do
  let items ← jIter j
  items.mapM fun p => do
    let n ← jSubscript p "name"
    let v ← jSubscript p "version"
    pure (n, v)

/-- The probe-relevant state of a `VirtualEnv`. -/
structure ProbeEnv where
  python_executable : Option String
  packages : List (JVal × JVal)
  packages_loaded : Bool

/-- The outcome of the `subprocess.run` call in `probe_packages`. -/
inductive ProcOutcome : Type where
  | raised                                -- SubprocessError (incl. timeout) or FileNotFoundError
  | done (returncode : Int) (stdoutJson : Option JVal)  -- parse of stdout; none = JSONDecodeError

/-- `VirtualEnv.probe_packages` (broomstick.py lines 330-348).  `Except.error`
means an uncaught exception propagates to the caller (the env state is then
unchanged, as the failed comprehension never assigns). -/
def probe_packages (force : Bool) (st : ProbeEnv) (res : ProcOutcome) :
    Except PyErr ProbeEnv :=
  if st.packages_loaded && !force then .ok st
  else if st.python_executable.isNone then .ok st
  else
    match res with
    | .raised => .ok st
    | .done rc stdoutJson =>
      if rc = 0 then
        match stdoutJson with
        | none => .ok st
        | some j =>
          match extractPackages j with
          | .ok pkgs => .ok { st with packages := pkgs, packages_loaded := true }
          | .error e => .error e
      else .ok st

/-! ## The TUI navigation state machine (broomstick.py lines 519-1429)

The mutable fields of `BroomstickTUI` that the navigation logic reads and
writes, with presentation-only fields (`show_help`) omitted.  The probe-side
fields of records are modelled separately above; here a `Venv` carries the
fields the state machine consumes. -/

/-- The `mode` strings of the TUI (`None` is `Option.none`). -/
inductive Mode : Type where
  | list | delete | explore | package
deriving DecidableEq

/-- The `current_view` strings of the TUI. -/
inductive View : Type where
  | modeSelect | categorySelect | interpreters | venvs | venvDetail | analysis
deriving DecidableEq

/-- The fields of `PythonInterpreter` the state machine reads. -/
structure Interp where
  path : String
  version : Option String
  manager : String
  is_system : Bool
  size_bytes : Nat
deriving DecidableEq

/-- The fields of `VirtualEnv` the state machine reads. -/
structure Venv where
  path : String
  name : String
  project_name : String
  manager : String
  size_bytes : Nat
  packages : List Pkg
deriving DecidableEq

/-- The derived fields of `VirtualEnv.__init__` (broomstick.py lines 278-289):
`name` is the basename, `project_name` comes from `get_project_name`, the
manager tag from the `_detect_info` chain. -/
def mkVenv (path : String) (size_bytes : Nat) (packages : List Pkg) : Venv :=
  { path := path
    name := basename path
    project_name := get_project_name path
    manager := venv_detect_manager path
    size_bytes := size_bytes
    packages := packages }

/-- The navigation state: the mutable fields of `BroomstickTUI`
(broomstick.py lines 522-535).  `selected_items` is a Python set of ints; it
is modelled as a duplicate-free list. -/
structure TUI where
  interpreters : List Interp
  venvs : List Venv
  mode : Option Mode
  current_view : View
  selected_venv : Option Venv
  cursor : Nat
  scroll_offset : Nat
  selected_items : List Nat
  breadcrumb : List String
  search_mode : Bool
  search_query : String
  filtered_items : List Nat
deriving DecidableEq

/-- The initial TUI state (broomstick.py lines 522-535). -/
def TUI.init (interpreters : List Interp) (venvs : List Venv) : TUI :=
  { interpreters := interpreters
    venvs := venvs
    mode := none
    current_view := .modeSelect
    selected_venv := none
    cursor := 0
    scroll_offset := 0
    selected_items := []
    breadcrumb := []
    search_mode := false
    search_query := ""
    filtered_items := [] }

/-- `_apply_search_filter` (broomstick.py lines 641-663): recompute
`filtered_items` as the indices of the current view's items matching the
lowercased query on the view-specific fields. -/
def TUI.apply_search_filter (s : TUI) : TUI :=
  match s.current_view with
  | .interpreters =>
    { s with filtered_items :=
        (s.interpreters.enum.filter fun ii =>
          (match ii.2.version with
           | some v => strContains (pyLower v) s.search_query
           | none => false) ||
          strContains (pyLower ii.2.manager) s.search_query ||
          strContains (pyLower ii.2.path) s.search_query).map Prod.fst }
  | .venvs =>
    { s with filtered_items :=
        (s.venvs.enum.filter fun iv =>
          strContains (pyLower iv.2.project_name) s.search_query ||
          strContains (pyLower iv.2.manager) s.search_query ||
          strContains (pyLower iv.2.path) s.search_query).map Prod.fst }
  | .venvDetail =>
    match s.selected_venv with
    | some venv =>
      { s with filtered_items :=
          (venv.packages.enum.filter fun ip =>
            strContains (pyLower ip.2.name) s.search_query ||
            strContains (pyLower ip.2.version) s.search_query).map Prod.fst }
    | none => { s with filtered_items := [] }
  | _ => { s with filtered_items := [] }

/-- `_start_search` (broomstick.py lines 610-639) after the query has been
read: a non-empty query lowercases it, turns search mode on, recomputes the
filter and resets cursor and scroll; an empty query clears the search state
(cursor and scroll are then left untouched). -/
def TUI.start_search (query : String) (s : TUI) : TUI :=
  if query ≠ "" then
    let s2 := TUI.apply_search_filter
      { s with search_query := pyLower query, search_mode := true }
    { s2 with cursor := 0, scroll_offset := 0 }
  else
    { s with search_mode := false, search_query := "", filtered_items := [] }

/-- `_adjust_scroll(max_items, visible_height)` (broomstick.py lines 704-721):
clamp the cursor into `[0, max_items - 1]` when `max_items > 0`, pull the
scroll offset to keep the cursor inside the visible window, then clamp the
offset into `[0, max(0, max_items - visible_height)]`.  All quantities are
non-negative; `Nat` subtraction coincides with the guarded Python
subtractions (the offset assignment `cursor - visible_height + 1` happens
only when `cursor >= scroll_offset + visible_height`). -/
def TUI.adjust_scroll (max_items visible_height : Nat) (s : TUI) : TUI :=
  let cursor := if 0 < max_items then min s.cursor (max_items - 1) else s.cursor
  let off :=
    if cursor < s.scroll_offset then cursor
    else if s.scroll_offset + visible_height ≤ cursor then cursor + 1 - visible_height
    else s.scroll_offset
  let max_scroll := max_items - visible_height
  { s with cursor := cursor, scroll_offset := min off max_scroll }

/-- The per-view `max_items` of `_adjust_scroll_for_view`
(broomstick.py lines 685-702).  Note that for the list views it is the length
of the UNFILTERED backing list, search filter or not. -/
def TUI.max_items_for_view (s : TUI) : Nat :=
  match s.current_view with
  | .modeSelect => 5
  | .categorySelect => if s.mode = some .explore then 3 else 2
  | .interpreters => s.interpreters.length
  | .venvs => s.venvs.length
  | .venvDetail =>
    match s.selected_venv with
    | some venv => venv.packages.length
    | none => 0
  | .analysis => 0

/-- `_adjust_scroll_for_view(screen_height)` (broomstick.py lines 685-702):
`visible_height = screen_height - 10`, `max_items` per the current view. -/
def TUI.adjust_scroll_for_view (screen_height : Nat) (s : TUI) : TUI :=
  TUI.adjust_scroll s.max_items_for_view (screen_height - 10) s

/-- The `KEY_UP` branch of the input loop (broomstick.py lines 583-585):
`cursor = max(0, cursor - 1)` then adjust scroll. -/
def TUI.key_up (screen_height : Nat) (s : TUI) : TUI :=
  TUI.adjust_scroll_for_view screen_height { s with cursor := s.cursor - 1 }

/-- The `KEY_DOWN` branch of the input loop (broomstick.py lines 586-588):
`cursor += 1` then adjust scroll. -/
def TUI.key_down (screen_height : Nat) (s : TUI) : TUI :=
  TUI.adjust_scroll_for_view screen_height { s with cursor := s.cursor + 1 }

/-- `_toggle_selection` (broomstick.py lines 1261-1267): on the three list
views, flip membership of `self.cursor` — the visible cursor position — in
`selected_items`. -/
def TUI.toggle_selection (s : TUI) : TUI :=
  if s.current_view = .interpreters ∨ s.current_view = .venvs ∨
      s.current_view = .venvDetail then
    if s.cursor ∈ s.selected_items then
      { s with selected_items := s.selected_items.erase s.cursor }
    else
      { s with selected_items := s.selected_items ++ [s.cursor] }
  else s

/-- `_handle_enter` (broomstick.py lines 1217-1259).  The mode-select entries
are `['list', 'delete', 'explore', 'package', 'quit']`; choosing `quit` calls
`sys.exit(0)`, modelled as `none`. -/
def TUI.handle_enter (s : TUI) : Option TUI :=
  match s.current_view with
  | .modeSelect =>
    -- modes[cursor] for cursor < 5; 'quit' is index 4
    if s.cursor = 4 then none
    else if h : s.cursor < 4 then
      some { s with
        mode := some ([Mode.list, Mode.delete, Mode.explore, Mode.package].get ⟨s.cursor, h⟩)
        current_view := .categorySelect
        breadcrumb := []
        cursor := 0
        scroll_offset := 0
        selected_items := [] }
    else some s
  | .categorySelect =>
    if s.cursor = 0 then
      some { s with
        current_view := .interpreters
        breadcrumb := s.breadcrumb ++ ["Interpreters"]
        cursor := 0
        scroll_offset := 0 }
    else if s.cursor = 1 then
      some { s with
        current_view := .venvs
        breadcrumb := s.breadcrumb ++ ["Virtual Environments"]
        cursor := 0
        scroll_offset := 0 }
    else if s.cursor = 2 ∧ s.mode = some .explore then
      some { s with
        current_view := .analysis
        breadcrumb := s.breadcrumb ++ ["Analysis"]
        cursor := 0
        scroll_offset := 0 }
    else some s
  | .venvs =>
    if s.mode = some .list ∨ s.mode = some .explore ∨ s.mode = some .package then
      match s.venvs[s.cursor]? with
      | some venv =>
        some { s with
          selected_venv := some venv
          current_view := .venvDetail
          breadcrumb := s.breadcrumb ++ [venv.project_name]
          cursor := 0
          scroll_offset := 0
          selected_items := [] }
      | none => some s
    else some s
  | _ => some s

/-- `_go_back` (broomstick.py lines 1403-1429). -/
def TUI.go_back (s : TUI) : TUI :=
  match s.current_view with
  | .venvDetail =>
    { s with
      current_view := .venvs
      selected_venv := none
      cursor := 0
      scroll_offset := 0
      selected_items := []
      breadcrumb := s.breadcrumb.dropLast }
  | .interpreters =>
    { s with
      current_view := .categorySelect
      cursor := 0
      scroll_offset := 0
      selected_items := []
      breadcrumb := [] }
  | .venvs =>
    { s with
      current_view := .categorySelect
      cursor := 0
      scroll_offset := 0
      selected_items := []
      breadcrumb := [] }
  | .analysis =>
    { s with
      current_view := .categorySelect
      cursor := 0
      scroll_offset := 0
      selected_items := []
      breadcrumb := [] }
  | .categorySelect =>
    { s with
      current_view := .modeSelect
      mode := none
      cursor := 0
      scroll_offset := 0
      breadcrumb := [] }
  | .modeSelect =>
    { s with
      current_view := .modeSelect
      mode := none
      cursor := 0
      breadcrumb := [] }

/-! ## The destructive delete batch (broomstick.py lines 1269-1337)

`_confirm_delete` after an affirmative response iterates the selection in
descending order; for each index on the `venvs` view that is in bounds of the
CURRENT list and whose path is not a system path it attempts
`shutil.rmtree` — success is given by the oracle `ok` — and on success pops
the index from the list.  The batch also records every path on which `rmtree`
was actually invoked. -/

/-- Python's `sorted(s, reverse=True)`: insertion sort, descending. -/
def insertDesc (x : Nat) : List Nat → List Nat
  | [] => [x]
  | y :: ys => if y ≤ x then x :: y :: ys else y :: insertDesc x ys

/-- The descending sort used by `sorted(self.selected_items, reverse=True)`. -/
def sortDesc (l : List Nat) : List Nat :=
  l.foldr insertDesc []

/-- One iteration of the delete loop: current venv list paired with the list
of paths deletion was attempted on. -/
def deleteStep (view : View) (ok : String → Bool) (st : List Venv × List String)
    (idx : Nat) : List Venv × List String :=
  if view = .venvs then
    match st.1[idx]? with
    | some venv =>
      if !is_system_path venv.path then
        if ok venv.path then (st.1.eraseIdx idx, st.2 ++ [venv.path])
        else (st.1, st.2 ++ [venv.path])
      else st
    | none => st
  else st

/-- The whole post-confirmation loop of `_confirm_delete` over the descending
selection. -/
def deleteBatch (view : View) (ok : String → Bool) (sel : List Nat)
    (venvs : List Venv) : List Venv × List String :=
  (sortDesc sel).foldl (deleteStep view ok) (venvs, [])

/-- `_confirm_delete` (broomstick.py lines 1269-1337): no-op on an empty
selection or a negative response; otherwise run the batch, clear the
selection and re-clamp the cursor. -/
def TUI.confirm_delete (ok : String → Bool) (yes : Bool) (s : TUI) : TUI :=
  if s.selected_items.isEmpty then s
  else if yes then
    let venvs2 := (deleteBatch s.current_view ok s.selected_items s.venvs).1
    { s with
      venvs := venvs2
      selected_items := []
      cursor := min s.cursor (venvs2.length - 1) }
  else s

/-- The expected outcome of one delete batch, as the claim describes it: drop
from the environment list exactly those positions (numbered from `i`) that
are selected, not system-protected, and whose `rmtree` succeeds; every other
record — in particular every protected one — survives in place. -/
def pruneFrom (ok : String → Bool) (ds : List Nat) : Nat → List Venv → List Venv
  | _, [] => []
  | i, v :: vs =>
    if i ∈ ds ∧ is_system_path v.path = false ∧ ok v.path = true
    then pruneFrom ok ds (i + 1) vs
    else v :: pruneFrom ok ds (i + 1) vs

/-- The cursor/search events of the interactive loop that the scroll
invariant quantifies over. -/
inductive Ev : Type where
  | up | down | search (query : String)

/-- One input event of the main loop: KEY_UP and KEY_DOWN move the cursor and
re-adjust scrolling (broomstick.py lines 583-588); a completed `/` search runs
`_start_search` (lines 606-607, 610-639). -/
def TUI.step (screen_height : Nat) (s : TUI) : Ev → TUI
  | .up => TUI.key_up screen_height s
  | .down => TUI.key_down screen_height s
  | .search q => TUI.start_search q s

/-- The scroll-window invariant, with N the item count that
`_adjust_scroll_for_view` actually uses — the UNFILTERED backing list of the
current view — and H the visible height `screen_height - 10`.  In `Nat`
arithmetic `N - H` is `max(0, N - H)`. -/
def ScrollInv (screen_height : Nat) (s : TUI) : Prop :=
  s.scroll_offset ≤ s.max_items_for_view - (screen_height - 10) ∧
  s.scroll_offset ≤ s.cursor ∧
  s.cursor < s.scroll_offset + (screen_height - 10) ∧
  s.cursor < s.max_items_for_view

/-! ## Concrete states used by individual claims -/

/-- A sample non-system project venv. -/
def sampleVenv (path : String) : Venv :=
  mkVenv path 100 []

/-- A concrete symlink-resolution function: `/home/u/link-venv` is a symlink
to `/opt/shared/venv`; every other path resolves to itself. -/
def c3realpath : String → String :=
  fun p => if p = "/home/u/link-venv" then "/opt/shared/venv" else p

/-- A fresh unloaded probe state with a working python executable. -/
def probeSt0 : ProbeEnv :=
  { python_executable := some "/h/p0/.venv/bin/python"
    packages := []
    packages_loaded := false }

/-- Delete mode on the venvs view, with a search filter mapping visible
position 0 to unfiltered index 5, cursor on visible position 0. -/
def c1State : TUI :=
  { TUI.init []
      [sampleVenv "/h/p0/.venv", sampleVenv "/h/p1/.venv", sampleVenv "/h/p2/.venv", sampleVenv "/h/p3/.venv", sampleVenv "/h/p4/.venv", sampleVenv "/h/p5/.venv"] with
    mode := some .delete
    current_view := .venvs
    search_mode := true
    search_query := "p5"
    filtered_items := [5] }

/-- A venvs view with an active search filter, as left by `_start_search`. -/
def c9State : TUI :=
  { TUI.init [] [sampleVenv "/h/p0/.venv", sampleVenv "/h/p1/.venv"] with
    mode := some .list
    current_view := .venvs
    breadcrumb := ["Virtual Environments"]
    search_mode := true
    search_query := "p1"
    filtered_items := [1] }

/-- A category-select state still carrying a (stale) selection. -/
def c9CatState : TUI :=
  { TUI.init [] [sampleVenv "/h/p0/.venv"] with
    mode := some .delete
    current_view := .categorySelect
    selected_items := [3] }

/-- Package mode on the venvs view, cursor on the second venv. -/
def c10State : TUI :=
  { TUI.init [] [sampleVenv "/h/p0/.venv", sampleVenv "/h/p1/.venv"] with
    mode := some .package
    current_view := .venvs
    cursor := 1 }

/-- A freshly-entered venvs list view with one environment. -/
def c5wState : TUI :=
  { TUI.init [] [sampleVenv "/h/p0/.venv"] with
    mode := some .list
    current_view := .venvs }

/-- A venvs view of two environments with a search filter whose filtered list
has a single entry. -/
def c5cState : TUI :=
  { TUI.init [] [sampleVenv "/h/p0/.venv", sampleVenv "/h/p1/.venv"] with
    mode := some .list
    current_view := .venvs
    search_mode := true
    search_query := "p1"
    filtered_items := [1] }

/-- The scan scenario: `/home/u/a/.venv` and `/home/u/a/b/.venv`, rooted at
`/home/u`. -/
def demoRoot : FTree :=
  .mk "u" []
    [.mk "a" []
      [.mk ".venv" ["pyvenv.cfg"] [],
       .mk "b" [] [.mk ".venv" ["pyvenv.cfg"] []]]]

/-- Delete mode on the venvs view: a protected system venv at index 0 and two
project venvs, with indices 0 and 1 selected. -/
def c2State : TUI :=
  { TUI.init []
      [mkVenv "/usr/bin/python3-embedded" 10 [],
       sampleVenv "/h/p1/.venv", sampleVenv "/h/p2/.venv"] with
    mode := some .delete
    current_view := .venvs
    selected_items := [0, 1] }

/-! ## Helper lemmas -/

theorem dedupKeys_not_mem_found (canon : String → String) :
    ∀ (rs found : List String) (k : String),
    k ∈ dedupKeys canon found rs → k ∉ found := by
  intro rs
  induction rs with
  | nil => intro found k hk; simp [dedupKeys] at hk
  | cons r rs ih =>
    intro found k hk
    simp only [dedupKeys] at hk
    split at hk
    · exact ih found k hk
    · rename_i hnew
      rcases List.mem_cons.mp hk with rfl | hk2
      · exact hnew
      · intro hkf
        exact (ih _ k hk2) (List.mem_cons_of_mem _ hkf)

theorem dedupKeys_nodup (canon : String → String) :
    ∀ (rs found : List String), (dedupKeys canon found rs).Nodup := by
  intro rs
  induction rs with
  | nil => intro found; simp [dedupKeys]
  | cons r rs ih =>
    intro found
    simp only [dedupKeys]
    split
    · exact ih found
    · refine List.nodup_cons.mpr ⟨?_, ih _⟩
      intro hmem
      exact (dedupKeys_not_mem_found canon _ _ _ hmem) (List.mem_cons_self _ _)

theorem dropLast_getLast?_getElem? {α : Type} :
    ∀ (l : List α), 2 ≤ l.length → l.dropLast.getLast? = l[l.length - 2]? := by
  intro l
  induction l with
  | nil => intro h; simp at h
  | cons a l2 ih =>
    intro h
    cases l2 with
    | nil => simp at h
    | cons b t =>
      cases t with
      | nil => simp
      | cons c t2 =>
        have ih2 := ih (by simp)
        have hlen : (a :: b :: c :: t2).length - 2 = t2.length + 1 := by simp
        rw [hlen, List.getElem?_cons_succ]
        have hlen2 : (b :: c :: t2).length - 2 = t2.length := by simp
        rw [hlen2] at ih2
        rw [← ih2]
        simp [List.dropLast_cons₂]

theorem addEntry_keys (k : String) (e : String × Nat) :
    ∀ m : List (String × List (String × Nat)),
    (addEntry m k e).map Prod.fst =
      if k ∈ m.map Prod.fst then m.map Prod.fst else m.map Prod.fst ++ [k] := by
  intro m
  induction m with
  | nil => simp [addEntry]
  | cons hd tl ih =>
    obtain ⟨k2, l⟩ := hd
    by_cases hk : k2 = k
    · subst hk
      simp [addEntry]
    · have hkk : ¬ (k = k2) := fun h2 => hk h2.symm
      simp only [addEntry, hk, if_false, List.map_cons, ih, List.mem_cons, hkk, false_or]
      split <;> simp

theorem addEntry_keys_nodup (m : List (String × List (String × Nat))) (k : String)
    (e : String × Nat) (h : (m.map Prod.fst).Nodup) :
    ((addEntry m k e).map Prod.fst).Nodup := by
  rw [addEntry_keys]
  split
  · exact h
  · rename_i hnot
    simp only [List.nodup_append, h, List.nodup_cons, List.not_mem_nil, not_false_iff,
      List.nodup_nil, and_true, true_and]
    intro a ha hmem
    simp only [List.mem_singleton] at hmem
    exact hnot (hmem ▸ ha)

theorem foldl_addEntry_nodup (ps : List Pkg) (i : Nat) :
    ∀ m, (m.map Prod.fst).Nodup →
    ((ps.foldl (fun m2 p => addEntry m2 (pyLower p.name) (p.version, i)) m).map
      Prod.fst).Nodup := by
  induction ps with
  | nil => intro m h; exact h
  | cons p ps ih => intro m h; exact ih _ (addEntry_keys_nodup m _ _ h)

theorem build_map_keys_nodup (envs : List (List Pkg)) :
    ((build_map envs).map Prod.fst).Nodup := by
  unfold build_map
  generalize (List.enum envs) = l
  have hstep : ∀ (l2 : List (Nat × List Pkg)) (m : List (String × List (String × Nat))),
      (m.map Prod.fst).Nodup →
      ((l2.foldl
        (fun m ie => ie.2.foldl (fun m2 p => addEntry m2 (pyLower p.name) (p.version, ie.1)) m)
        m).map Prod.fst).Nodup := by
    intro l2
    induction l2 with
    | nil => intro m h; exact h
    | cons ie l2 ih => intro m h; exact ih _ (foldl_addEntry_nodup ie.2 ie.1 m h)
  exact hstep l [] (by simp)

theorem lookupInstalls_eq_of_mem :
    ∀ (m : List (String × List (String × Nat))) (k : String) (l : List (String × Nat)),
    (m.map Prod.fst).Nodup → (k, l) ∈ m → lookupInstalls m k = some l := by
  intro m
  induction m with
  | nil => intro k l _ h; simp at h
  | cons hd tl ih =>
    intro k l hn hm
    obtain ⟨k2, l2⟩ := hd
    rcases List.mem_cons.mp hm with heq | hm2
    · cases heq
      simp [lookupInstalls]
    · have hn2 : k2 ∉ tl.map Prod.fst ∧ (tl.map Prod.fst).Nodup := by
        rw [List.map_cons, List.nodup_cons] at hn
        exact hn
      have hk2 : ¬ (k2 = k) := by
        intro h2
        subst h2
        exact hn2.1 (List.mem_map_of_mem Prod.fst hm2)
      simpa [lookupInstalls, hk2] using ih k l hn2.2 hm2

theorem conflict_mem_dup (m : List (String × List (String × Nat))) (name : String)
    (h : name ∈ conflictNames m) : name ∈ dupNames m := by
  simp only [conflictNames, get_version_conflicts, List.mem_map, List.mem_filterMap] at h
  obtain ⟨e2, ⟨e, hem, hsome⟩, hfst⟩ := h
  by_cases hc : 1 < ((e.2.map Prod.fst).dedup).length
  · rw [if_pos hc] at hsome
    cases hsome
    have hlen : 1 < e.2.length := by
      calc 1 < ((e.2.map Prod.fst).dedup).length := hc
        _ ≤ (e.2.map Prod.fst).length := (List.dedup_sublist _).length_le
        _ = e.2.length := List.length_map _ _
    simp only [dupNames, get_duplicates, List.mem_map]
    exact ⟨e, List.mem_filter.mpr ⟨hem, by simpa using hlen⟩, hfst⟩
  · rw [if_neg hc] at hsome
    cases hsome

theorem dup_lookup_long (m : List (String × List (String × Nat))) (name : String)
    (installs : List (String × Nat)) (hnodup : (m.map Prod.fst).Nodup)
    (hlook : lookupInstalls m name = some installs) (hdup : name ∈ dupNames m) :
    1 < installs.length := by
  simp only [dupNames, get_duplicates, List.mem_map] at hdup
  obtain ⟨e, hef, hname⟩ := hdup
  have hf := List.mem_filter.mp hef
  have hb : 1 < e.2.length := by simpa using hf.2
  have hmem : (name, e.2) ∈ m := by
    have he : e = (name, e.2) := by
      obtain ⟨e1, el⟩ := e
      simp only at hname
      simp [hname]
    exact he ▸ hf.1
  have hl2 := lookupInstalls_eq_of_mem m name e.2 hnodup hmem
  rw [hlook] at hl2
  cases hl2
  exact hb

theorem adjust_scroll_establishes (s : TUI) (N H : Nat) (hN : 1 ≤ N) (hH : 1 ≤ H) :
    (TUI.adjust_scroll N H s).scroll_offset ≤ N - H ∧
    (TUI.adjust_scroll N H s).scroll_offset ≤ (TUI.adjust_scroll N H s).cursor ∧
    (TUI.adjust_scroll N H s).cursor < (TUI.adjust_scroll N H s).scroll_offset + H ∧
    (TUI.adjust_scroll N H s).cursor < N := by
  unfold TUI.adjust_scroll
  dsimp only
  split_ifs <;> omega

theorem apply_search_filter_view_eq (s : TUI) :
    (TUI.apply_search_filter s).max_items_for_view = s.max_items_for_view := by
  obtain ⟨i, v, m, view, sv, c, so, si, b, sm, sq, fi⟩ := s
  cases view <;> cases sv <;> rfl

theorem start_search_view_eq (q : String) (s : TUI) :
    (TUI.start_search q s).max_items_for_view = s.max_items_for_view := by
  unfold TUI.start_search
  split
  · exact apply_search_filter_view_eq { s with search_query := pyLower q, search_mode := true }
  · rfl

theorem step_view_eq (sh : Nat) (s : TUI) (e : Ev) :
    (TUI.step sh s e).max_items_for_view = s.max_items_for_view := by
  cases e with
  | up => rfl
  | down => rfl
  | search q => exact start_search_view_eq q s

theorem scrollInv_step (sh : Nat) (s : TUI) (e : Ev) (hsh : 11 ≤ sh)
    (hN : 1 ≤ s.max_items_for_view) (hInv : ScrollInv sh s) :
    ScrollInv sh (TUI.step sh s e) := by
  have hH : 1 ≤ sh - 10 := by omega
  cases e with
  | up =>
    exact adjust_scroll_establishes { s with cursor := s.cursor - 1 }
      (TUI.max_items_for_view { s with cursor := s.cursor - 1 }) (sh - 10) hN hH
  | down =>
    exact adjust_scroll_establishes { s with cursor := s.cursor + 1 }
      (TUI.max_items_for_view { s with cursor := s.cursor + 1 }) (sh - 10) hN hH
  | search q =>
    show ScrollInv sh (TUI.start_search q s)
    unfold TUI.start_search
    split
    · have h4 := apply_search_filter_view_eq
        { s with search_query := pyLower q, search_mode := true }
      have h5 : 0 < TUI.max_items_for_view (TUI.apply_search_filter
          { s with search_query := pyLower q, search_mode := true }) := by
        rw [h4]; exact hN
      exact ⟨Nat.zero_le _, Nat.le_refl 0, (by omega : (0 : Nat) < 0 + (sh - 10)), h5⟩
    · exact hInv

theorem scanFuel_length_le :
    ∀ (fuel : Nat) (t : FTree) (base p : List String),
    p ∈ scanFuel fuel t base → p.length ≤ base.length + fuel := by
  intro fuel
  induction fuel with
  | zero => intro t base p hp; simp [scanFuel] at hp
  | succ fuel ih =>
    intro t base p hp
    simp only [scanFuel, List.mem_flatMap] at hp
    obtain ⟨c, hc, hpc⟩ := hp
    split at hpc
    · simp at hpc
    · split at hpc
      · simp only [List.mem_singleton] at hpc
        subst hpc
        simp
      · have := ih c (base ++ [c.name]) p hpc
        simp at this
        omega

theorem scanFuel_extends :
    ∀ (fuel : Nat) (t : FTree) (base p : List String),
    p ∈ scanFuel fuel t base → base <+: p := by
  intro fuel
  induction fuel with
  | zero => intro t base p hp; simp [scanFuel] at hp
  | succ fuel ih =>
    intro t base p hp
    simp only [scanFuel, List.mem_flatMap] at hp
    obtain ⟨c, hc, hpc⟩ := hp
    split at hpc
    · simp at hpc
    · split at hpc
      · simp only [List.mem_singleton] at hpc
        subst hpc
        exact List.prefix_append base [c.name]
      · exact (List.prefix_append base [c.name]).trans (ih c (base ++ [c.name]) p hpc)

theorem scanFuel_prefixFree :
    ∀ (fuel : Nat) (t : FTree) (base : List String), wfFuel fuel t = true →
    PrefixFree (scanFuel fuel t base) := by
  intro fuel
  induction fuel with
  | zero => intro t base hwf; simp [scanFuel, PrefixFree]
  | succ fuel ih =>
    intro t base hwf
    simp only [wfFuel, Bool.and_eq_true, List.all_eq_true, decide_eq_true_eq] at hwf
    obtain ⟨hnodup, hall⟩ := hwf
    have hchildpre : ∀ c ∈ t.children, ∀ x ∈
        (if skipDir c.name then []
         else if is_venv c then [base ++ [c.name]]
         else scanFuel fuel c (base ++ [c.name])),
        (base ++ [c.name]) <+: x := by
      intro c hc x hx
      split at hx
      · simp at hx
      · split at hx
        · simp only [List.mem_singleton] at hx
          subst hx
          exact List.prefix_rfl
        · exact scanFuel_extends fuel c (base ++ [c.name]) x hx
    unfold PrefixFree
    simp only [scanFuel, List.flatMap_def]
    rw [List.pairwise_flatten]
    constructor
    · intro l hl
      simp only [List.mem_map] at hl
      obtain ⟨c, hc, hlc⟩ := hl
      subst hlc
      split
      · exact List.Pairwise.nil
      · split
        · simp
        · exact ih c (base ++ [c.name]) (hall c hc)
    · rw [List.pairwise_map]
      have hnames : t.children.Pairwise fun c1 c2 => c1.name ≠ c2.name := by
        have h2 := hnodup
        rw [List.Nodup, List.pairwise_map] at h2
        exact h2
      refine hnames.imp_of_mem ?_
      intro c1 c2 hc1 hc2 hne x hx y hy
      have px := hchildpre c1 hc1 x hx
      have py := hchildpre c2 hc2 y hy
      constructor
      · intro hxy
        have h1 : (base ++ [c1.name]) <+: y := px.trans hxy
        have h2 : (base ++ [c2.name]) <+: y := py
        have heq : base ++ [c1.name] = base ++ [c2.name] := by
          rcases List.prefix_or_prefix_of_prefix h1 h2 with h | h
          · exact h.eq_of_length (by simp)
          · exact (h.eq_of_length (by simp)).symm
        simp at heq
        exact hne heq
      · intro hyx
        have h1 : (base ++ [c2.name]) <+: x := py.trans hyx
        have h2 : (base ++ [c1.name]) <+: x := px
        have heq : base ++ [c1.name] = base ++ [c2.name] := by
          rcases List.prefix_or_prefix_of_prefix h2 h1 with h | h
          · exact h.eq_of_length (by simp)
          · exact (h.eq_of_length (by simp)).symm
        simp at heq
        exact hne heq

theorem prune_of_all_lt (ok : String → Bool) (ds : List Nat) :
    ∀ (vs : List Venv) (i : Nat), (∀ x ∈ ds, x < i) → pruneFrom ok ds i vs = vs := by
  intro vs
  induction vs with
  | nil => intro i h; rfl
  | cons v vs ih =>
    intro i h
    have hni : i ∉ ds := fun hin => absurd (h i hin) (by omega)
    simp only [pruneFrom, hni, false_and, if_false]
    rw [ih (i + 1) (fun x hx => by have := h x hx; omega)]

theorem prune_congr (ok : String → Bool) (ds ds2 : List Nat)
    (h : ∀ x, x ∈ ds ↔ x ∈ ds2) :
    ∀ (vs : List Venv) (i : Nat), pruneFrom ok ds i vs = pruneFrom ok ds2 i vs := by
  intro vs
  induction vs with
  | nil => intro i; rfl
  | cons v vs ih =>
    intro i
    simp only [pruneFrom, h i]
    split
    · exact ih (i + 1)
    · rw [ih (i + 1)]

theorem prune_cons_oob (ok : String → Bool) (ds : List Nat) (d : Nat) :
    ∀ (vs : List Venv) (i : Nat), (∀ x ∈ ds, x < d) → i ≤ d → vs.length ≤ d - i →
    pruneFrom ok (d :: ds) i vs = pruneFrom ok ds i vs := by
  intro vs
  induction vs with
  | nil => intro i _ _ _; rfl
  | cons v vs ih =>
    intro i hlt hid hlen
    simp only [List.length_cons] at hlen
    have hid2 : i < d := by omega
    have hii : (i ∈ d :: ds) ↔ (i ∈ ds) := by
      simp only [List.mem_cons]
      constructor
      · rintro (rfl | h)
        · omega
        · exact h
      · exact Or.inr
    simp only [pruneFrom, hii]
    split
    · exact ih (i + 1) hlt (by omega) (by omega)
    · rw [ih (i + 1) hlt (by omega) (by omega)]

theorem prune_cons_del (ok : String → Bool) (ds : List Nat) (d : Nat) (v : Venv) :
    ∀ (vs : List Venv) (i : Nat), (∀ x ∈ ds, x < d) → i ≤ d →
    vs[d - i]? = some v → is_system_path v.path = false → ok v.path = true →
    pruneFrom ok (d :: ds) i vs = pruneFrom ok ds i (vs.eraseIdx (d - i)) := by
  intro vs
  induction vs with
  | nil => intro i _ _ hv _ _; simp at hv
  | cons v0 vs ih =>
    intro i hlt hid hv hsys hok
    by_cases hieq : i = d
    · subst hieq
      simp only [Nat.sub_self, List.getElem?_cons_zero, Option.some_inj] at hv
      subst hv
      have hcond : (i ∈ i :: ds ∧ is_system_path v0.path = false ∧ ok v0.path = true) := by
        exact ⟨List.mem_cons_self _ _, hsys, hok⟩
      simp only [pruneFrom, if_pos hcond, Nat.sub_self, List.eraseIdx_cons_zero]
      rw [prune_of_all_lt ok (i :: ds) vs (i + 1) ?hall, prune_of_all_lt ok ds vs i ?hall2]
      case hall =>
        intro x hx
        rcases List.mem_cons.mp hx with rfl | hx2
        · omega
        · have := hlt x hx2; omega
      case hall2 => exact hlt
    · have hid2 : i < d := by omega
      have hk : d - i = (d - (i + 1)) + 1 := by omega
      rw [hk] at hv
      simp only [List.getElem?_cons_succ] at hv
      have hii : (i ∈ d :: ds) ↔ (i ∈ ds) := by
        simp only [List.mem_cons]
        constructor
        · rintro (rfl | h)
          · omega
          · exact h
        · exact Or.inr
      rw [hk, List.eraseIdx_cons_succ]
      simp only [pruneFrom, hii]
      split
      · exact ih (i + 1) hlt (by omega) hv hsys hok
      · rw [ih (i + 1) hlt (by omega) hv hsys hok]

theorem prune_cons_nodel (ok : String → Bool) (ds : List Nat) (d : Nat) (v : Venv) :
    ∀ (vs : List Venv) (i : Nat), (∀ x ∈ ds, x < d) → i ≤ d →
    vs[d - i]? = some v → ¬ (is_system_path v.path = false ∧ ok v.path = true) →
    pruneFrom ok (d :: ds) i vs = pruneFrom ok ds i vs := by
  intro vs
  induction vs with
  | nil => intro i _ _ hv _; simp at hv
  | cons v0 vs ih =>
    intro i hlt hid hv hnd
    by_cases hieq : i = d
    · subst hieq
      simp only [Nat.sub_self, List.getElem?_cons_zero, Option.some_inj] at hv
      subst hv
      have hc1 : ¬ (i ∈ i :: ds ∧ is_system_path v0.path = false ∧ ok v0.path = true) := by
        intro hcc
        exact hnd ⟨hcc.2.1, hcc.2.2⟩
      have hc2 : ¬ (i ∈ ds ∧ is_system_path v0.path = false ∧ ok v0.path = true) := by
        intro hcc
        have := hlt i hcc.1
        omega
      simp only [pruneFrom, if_neg hc1, if_neg hc2]
      rw [prune_of_all_lt ok (i :: ds) vs (i + 1) ?hall, prune_of_all_lt ok ds vs (i + 1) ?hall2]
      case hall =>
        intro x hx
        rcases List.mem_cons.mp hx with rfl | hx2
        · omega
        · have := hlt x hx2; omega
      case hall2 =>
        intro x hx
        have := hlt x hx; omega
    · have hid2 : i < d := by omega
      have hk : d - i = (d - (i + 1)) + 1 := by omega
      rw [hk] at hv
      simp only [List.getElem?_cons_succ] at hv
      have hii : (i ∈ d :: ds) ↔ (i ∈ ds) := by
        simp only [List.mem_cons]
        constructor
        · rintro (rfl | h)
          · omega
          · exact h
        · exact Or.inr
      simp only [pruneFrom, hii]
      split
      · exact ih (i + 1) hlt (by omega) hv hnd
      · rw [ih (i + 1) hlt (by omega) hv hnd]

theorem mem_insertDesc (x y : Nat) : ∀ l, y ∈ insertDesc x l ↔ y = x ∨ y ∈ l := by
  intro l
  induction l with
  | nil => simp [insertDesc]
  | cons a l ih =>
    simp only [insertDesc]
    split
    · simp [List.mem_cons]
    · simp only [List.mem_cons, ih]
      tauto

theorem mem_sortDesc (x : Nat) : ∀ l, x ∈ sortDesc l ↔ x ∈ l := by
  intro l
  induction l with
  | nil => simp [sortDesc]
  | cons a l ih =>
    show x ∈ insertDesc a (sortDesc l) ↔ _
    rw [mem_insertDesc]
    simp [ih]

theorem insertDesc_pairwise_ge (x : Nat) :
    ∀ l, l.Pairwise (fun a b => b ≤ a) → (insertDesc x l).Pairwise (fun a b => b ≤ a) := by
  intro l
  induction l with
  | nil => intro h; simp [insertDesc]
  | cons a l ih =>
    intro h
    have hpc := List.pairwise_cons.mp h
    simp only [insertDesc]
    split
    · rename_i hax
      refine List.pairwise_cons.mpr ⟨?_, h⟩
      intro b hb
      rcases List.mem_cons.mp hb with rfl | hbl
      · exact hax
      · exact le_trans (hpc.1 b hbl) hax
    · rename_i hax
      refine List.pairwise_cons.mpr ⟨?_, ih hpc.2⟩
      intro b hb
      rcases (mem_insertDesc x b l).mp hb with rfl | hbl
      · omega
      · exact hpc.1 b hbl

theorem sortDesc_pairwise_ge : ∀ l : List Nat, (sortDesc l).Pairwise (fun a b => b ≤ a) := by
  intro l
  induction l with
  | nil => simp [sortDesc]
  | cons a l ih => exact insertDesc_pairwise_ge a _ ih

theorem insertDesc_nodup (x : Nat) :
    ∀ l, x ∉ l → l.Nodup → (insertDesc x l).Nodup := by
  intro l
  induction l with
  | nil => intro _ _; simp [insertDesc]
  | cons a l ih =>
    intro hx hn
    have hna := List.nodup_cons.mp hn
    simp only [insertDesc]
    split
    · refine List.nodup_cons.mpr ⟨hx, hn⟩
    · refine List.nodup_cons.mpr ⟨?_, ih (fun h2 => hx (List.mem_cons_of_mem _ h2)) hna.2⟩
      intro hmem
      rcases (mem_insertDesc x a l).mp hmem with rfl | h2
      · exact hx (List.mem_cons_self _ _)
      · exact hna.1 h2

theorem sortDesc_nodup : ∀ l : List Nat, l.Nodup → (sortDesc l).Nodup := by
  intro l
  induction l with
  | nil => intro _; simp [sortDesc]
  | cons a l ih =>
    intro hn
    have hna := List.nodup_cons.mp hn
    exact insertDesc_nodup a _ (fun h2 => hna.1 ((mem_sortDesc a l).mp h2)) (ih hna.2)

theorem sortDesc_pairwise_gt (l : List Nat) (h : l.Nodup) :
    (sortDesc l).Pairwise (fun a b => b < a) := by
  have h1 := sortDesc_pairwise_ge l
  have h2 : (sortDesc l).Nodup := sortDesc_nodup l h
  exact (h1.and h2).imp fun hab => lt_of_le_of_ne hab.1 (Ne.symm hab.2)

theorem deleteStep_venvs_none (ok : String → Bool) (vs : List Venv) (acc : List String)
    (d : Nat) (hv : vs[d]? = none) :
    deleteStep View.venvs ok (vs, acc) d = (vs, acc) := by
  simp [deleteStep, hv]

theorem deleteStep_venvs_sys (ok : String → Bool) (vs : List Venv) (acc : List String)
    (d : Nat) (v : Venv) (hv : vs[d]? = some v) (hsys : is_system_path v.path = true) :
    deleteStep View.venvs ok (vs, acc) d = (vs, acc) := by
  simp [deleteStep, hv, hsys]

theorem deleteStep_venvs_del (ok : String → Bool) (vs : List Venv) (acc : List String)
    (d : Nat) (v : Venv) (hv : vs[d]? = some v) (hsys : is_system_path v.path = false)
    (hok : ok v.path = true) :
    deleteStep View.venvs ok (vs, acc) d = (vs.eraseIdx d, acc ++ [v.path]) := by
  simp [deleteStep, hv, hsys, hok]

theorem deleteStep_venvs_keep (ok : String → Bool) (vs : List Venv) (acc : List String)
    (d : Nat) (v : Venv) (hv : vs[d]? = some v) (hsys : is_system_path v.path = false)
    (hok : ok v.path = false) :
    deleteStep View.venvs ok (vs, acc) d = (vs, acc ++ [v.path]) := by
  simp [deleteStep, hv, hsys, hok]

theorem deleteBatch_go (ok : String → Bool) :
    ∀ (ds : List Nat) (vs : List Venv) (acc : List String),
    ds.Pairwise (fun a b => b < a) →
    (ds.foldl (deleteStep View.venvs ok) (vs, acc)).1 = pruneFrom ok ds 0 vs := by
  intro ds
  induction ds with
  | nil =>
    intro vs acc _
    exact (prune_of_all_lt ok [] vs 0 (by simp)).symm
  | cons d ds ih =>
    intro vs acc hp
    have hpc := List.pairwise_cons.mp hp
    have hlt : ∀ x ∈ ds, x < d := hpc.1
    simp only [List.foldl_cons]
    cases hv : vs[d]? with
    | none =>
      have hlen : vs.length ≤ d := by
        by_contra hcon
        push_neg at hcon
        rw [List.getElem?_eq_getElem hcon] at hv
        cases hv
      rw [deleteStep_venvs_none ok vs acc d hv, ih vs acc hpc.2]
      exact (prune_cons_oob ok ds d vs 0 hlt (Nat.zero_le d) (by omega)).symm
    | some v =>
      cases hsys : is_system_path v.path with
      | true =>
        rw [deleteStep_venvs_sys ok vs acc d v hv hsys, ih vs acc hpc.2]
        refine (prune_cons_nodel ok ds d v vs 0 hlt (Nat.zero_le d) (by simpa using hv) ?_).symm
        intro hcc
        rw [hsys] at hcc
        cases hcc.1
      | false =>
        cases hok : ok v.path with
        | true =>
          rw [deleteStep_venvs_del ok vs acc d v hv hsys hok,
            ih (vs.eraseIdx d) (acc ++ [v.path]) hpc.2]
          exact (prune_cons_del ok ds d v vs 0 hlt (Nat.zero_le d) (by simpa using hv)
            hsys hok).symm
        | false =>
          rw [deleteStep_venvs_keep ok vs acc d v hv hsys hok, ih vs (acc ++ [v.path]) hpc.2]
          refine (prune_cons_nodel ok ds d v vs 0 hlt (Nat.zero_le d)
            (by simpa using hv) ?_).symm
          intro hcc
          rw [hok] at hcc
          cases hcc.2

theorem deleteStep_attempted (view : View) (ok : String → Bool) (st : List Venv × List String)
    (d : Nat) (h : ∀ p ∈ st.2, is_system_path p = false) :
    ∀ p ∈ (deleteStep view ok st d).2, is_system_path p = false := by
  unfold deleteStep
  split
  · cases hv : st.1[d]? with
    | none => exact h
    | some v =>
      by_cases hsys : is_system_path v.path
      · simp only [hsys, Bool.not_true, Bool.false_eq_true, if_false]
        exact h
      · have hsys2 : is_system_path v.path = false := by
          cases hsb : is_system_path v.path
          · rfl
          · exact absurd hsb hsys
        simp only [hsys2, Bool.not_false, if_true]
        split
        · intro p hp
          rcases List.mem_append.mp hp with hp2 | hp2
          · exact h p hp2
          · simp only [List.mem_singleton] at hp2
            subst hp2
            exact hsys2
        · intro p hp
          rcases List.mem_append.mp hp with hp2 | hp2
          · exact h p hp2
          · simp only [List.mem_singleton] at hp2
            subst hp2
            exact hsys2
  · exact h

theorem deleteBatch_attempted (view : View) (ok : String → Bool) :
    ∀ (ds : List Nat) (st : List Venv × List String),
    (∀ p ∈ st.2, is_system_path p = false) →
    ∀ p ∈ (ds.foldl (deleteStep view ok) st).2, is_system_path p = false := by
  intro ds
  induction ds with
  | nil => intro st h; exact h
  | cons d ds ih =>
    intro st h
    simp only [List.foldl_cons]
    exact ih _ (deleteStep_attempted view ok st d h)

theorem pruneFrom_keeps_system (ok : String → Bool) (ds : List Nat) :
    ∀ (vs : List Venv) (i : Nat) (v : Venv), v ∈ vs → is_system_path v.path = true →
    v ∈ pruneFrom ok ds i vs := by
  intro vs
  induction vs with
  | nil => intro i v h; simp at h
  | cons v0 vs ih =>
    intro i v hv hsys
    simp only [pruneFrom]
    split
    · rename_i hcond
      rcases List.mem_cons.mp hv with rfl | hv2
      · rw [hsys] at hcond
        cases hcond.2.1
      · exact ih (i + 1) v hv2 hsys
    · rcases List.mem_cons.mp hv with rfl | hv2
      · exact List.mem_cons_self _ _
      · exact List.mem_cons_of_mem _ (ih (i + 1) v hv2 hsys)

/-! ## Claim theorems -/

/-- C8 (counterexample): the claim posits a single fixed ordered rule list —
pyenv, asdf, conda-family, homebrew, pipx, poetry, pipenv/virtualenvs, hatch,
pdm, uv, fallback — used for both interpreters and environments.  On the path
`/opt/poetry/env/bin/python` the interpreter chain of the code assigns the
fallback tag `unknown` while the environment chain assigns `poetry`: a single
list would either match poetry for both or for neither.  Moreover the
environment chain tests pipx BEFORE the conda family, contrary to the claimed
order, as `/home/u/anaconda3/envs/pipx42` shows. -/
theorem c8_counterexample :
    interp_detect_manager "/opt/poetry/env/bin/python" = "unknown" ∧
    venv_detect_manager "/opt/poetry/env/bin/python" = "poetry" ∧
    venv_detect_manager "/home/u/anaconda3/envs/pipx42" = "pipx" := by
  refine ⟨by decide, by decide, by decide⟩

/-- C8 (amended): each kind has its own fixed ordered rule list evaluated
against substrings of the lowercased path, first match wins — interpreters:
pyenv, asdf, conda-family, homebrew/cellar, uv, then system (protected path)
else unknown; environments: pyenv, pipx, poetry, conda-family,
virtualenvs/pipenv, hatch, pdm, uv, then fallback venv. -/
theorem c8_theorem (path : String) :
    interp_detect_manager path = applyRules interpRules "unknown" path ∧
    venv_detect_manager path = applyRules venvRules "venv" path := by
  constructor <;> rfl

/-- C3 (counterexample): the claim says the dedup key is the canonicalized,
symlink-resolved path for environment discovery as well.  `find_venvs` keys
its found-set on `os.path.abspath` only: with a symlink `/home/u/link-venv`
resolving to `/opt/shared/venv` and both paths produced as candidates, the
combined environment result holds TWO records for that one canonical path
(while interpreter discovery, which resolves symlinks, holds one). -/
theorem c3_counterexample :
    (find_venvs_keys ["/home/u/link-venv", "/opt/shared/venv"]).countP
      (fun k => c3realpath k == "/opt/shared/venv") = 2 ∧
    (find_python_interpreters_keys c3realpath
      ["/home/u/link-venv", "/opt/shared/venv"]).countP
      (fun k => k == "/opt/shared/venv") = 1 := by
  refine ⟨by decide, by decide⟩

/-- C3 (amended): each discoverer holds exactly one record per its own dedup
key — for interpreters the symlink-resolved absolute path, for environments
the absolute path WITHOUT symlink resolution (so one physical directory
reached through different symlinks can yield two environment records). -/
theorem c3_theorem (realpath : String → String) (raws raws2 : List String) :
    (find_python_interpreters_keys realpath raws).Nodup ∧
    (find_venvs_keys raws2).Nodup :=
  ⟨dedupKeys_nodup realpath raws [], dedupKeys_nodup (fun p => p) raws2 []⟩

/-- C4 (counterexample): the claim says a package owned by exactly one
environment appears in neither result.  `get_duplicates` counts INSTALL
ENTRIES, not distinct owners: a single environment whose pip listing carries
two case-variants of one name ("Requests" and "requests" both case-fold to
"requests") owns the package alone, yet the package is reported both as a
duplicate (2 entries) and as a version conflict (2 distinct versions). -/
theorem c4_counterexample :
    ownerCount (build_map [[⟨"Requests", "1.0", 0⟩, ⟨"requests", "2.0", 0⟩]]) "requests" = 1 ∧
    "requests" ∈ dupNames (build_map [[⟨"Requests", "1.0", 0⟩, ⟨"requests", "2.0", 0⟩]]) ∧
    "requests" ∈ conflictNames (build_map [[⟨"Requests", "1.0", 0⟩, ⟨"requests", "2.0", 0⟩]]) := by
  refine ⟨by decide, by decide, by decide⟩

/-- C4 (amended): for every index built by `PackageAnalyzer` from any
environments, every name reported by `get_version_conflicts` (≥ 2 distinct
versions) is also reported by `get_duplicates` (≥ 2 install entries); and a
package with exactly one install entry — in particular one owned by a single
environment listing it once — appears in neither result. -/
theorem c4_theorem (envs : List (List Pkg)) (name : String) :
    (name ∈ conflictNames (build_map envs) → name ∈ dupNames (build_map envs)) ∧
    (∀ installs, lookupInstalls (build_map envs) name = some installs →
      installs.length ≤ 1 →
      name ∉ dupNames (build_map envs) ∧ name ∉ conflictNames (build_map envs)) := by
  constructor
  · exact conflict_mem_dup _ name
  · intro installs hlook hlen
    constructor
    · intro hdup
      have := dup_lookup_long _ name installs (build_map_keys_nodup envs) hlook hdup
      omega
    · intro hconf
      have hdup := conflict_mem_dup _ name hconf
      have := dup_lookup_long _ name installs (build_map_keys_nodup envs) hlook hdup
      omega

/-- C4 (witness): the single-entry package "alpha" of a one-environment index
is reported neither as a duplicate nor as a conflict. -/
theorem c4_witness :
    "alpha" ∉ dupNames (build_map [[⟨"alpha", "1.0", 0⟩]]) ∧
    "alpha" ∉ conflictNames (build_map [[⟨"alpha", "1.0", 0⟩]]) :=
  ( c4_theorem [[⟨"alpha", "1.0", 0⟩]] "alpha").2 [("1.0", 0)] (by decide) (by decide)

/-- C7 (counterexample): the claim says malformed output of EVERY shape
degrades to the unknown/empty state and never raises.  Output that parses as
JSON but has the wrong shape — here the array `[1]` — makes the comprehension
`[Package(p['name'], p['version']) for p in pkg_list]` raise a `TypeError`
(and `[{"name": "x"}]` a `KeyError`), neither of which is in the `except`
clause of `probe_packages`, so the exception propagates to the caller. -/
theorem c7_counterexample :
    probe_packages false probeSt0 (.done 0 (some (.arr [.num 1]))) =
      .error .typeError ∧
    probe_packages false probeSt0 (.done 0 (some (.arr [.obj [("name", .str "x")]]))) =
      .error (.keyError "version") := by
  exact ⟨rfl, rfl⟩

/-- C7 (amended): a raised subprocess error (including timeout and a missing
executable), a non-zero exit code, or stdout that fails to PARSE as JSON all
degrade to the unchanged state — packages untouched, not marked loaded, no
exception — but JSON-parseable output of the wrong shape raises a
`TypeError`/`KeyError` into the caller. -/
theorem c7_theorem (st : ProbeEnv) (force : Bool) (rc : Int) (mp : Option JVal) :
    probe_packages force st .raised = .ok st ∧
    (rc ≠ 0 → probe_packages force st (.done rc mp) = .ok st) ∧
    probe_packages force st (.done rc none) = .ok st := by
  refine ⟨?_, ?_, ?_⟩ <;> simp only [probe_packages] <;> intros <;>
    repeat' split <;> simp_all

/-- C7 (witness): the degradation cases of `c7_theorem` at a concrete
unloaded environment — a raised subprocess error, exit code 1, and
unparseable stdout all leave the state untouched. -/
theorem c7_witness :
    probe_packages false probeSt0 .raised = .ok probeSt0 ∧
    probe_packages false probeSt0 (.done 1 (some .null)) = .ok probeSt0 ∧
    probe_packages false probeSt0 (.done 0 none) = .ok probeSt0 :=
  ⟨(c7_theorem probeSt0 false 1 (some .null)).1,
   (c7_theorem probeSt0 false 1 (some .null)).2.1 (by decide),
   (c7_theorem probeSt0 false 0 none).2.2⟩

/-- C9 (counterexample): the claim says every back transition clears the
search state (active flag, query, filtered indices) of the level being left.
`_go_back` never touches `search_mode`, `search_query` or `filtered_items`:
backing out of a filtered venv list keeps the whole search state; and the
`category_select → mode_select` step does not clear the selection either. -/
theorem c9_counterexample :
    (TUI.go_back c9State).current_view = View.categorySelect ∧
    (TUI.go_back c9State).search_mode = true ∧
    (TUI.go_back c9State).search_query = "p1" ∧
    (TUI.go_back c9State).filtered_items = [1] ∧
    (TUI.go_back c9CatState).selected_items = [3] := by
  refine ⟨rfl, rfl, rfl, rfl, rfl⟩

/-- C9 (amended): `back` moves exactly one level per the fixed reverse table
(venv_detail→venvs, {interpreters,venvs,analysis}→category_select,
category_select→mode_select; from mode_select the input loop terminates on
`q`, `_go_back` itself stays put clearing the mode); it resets cursor (and,
except from mode_select, scroll) and clears the breadcrumb of the level left;
it clears the selection when leaving venv_detail or the three list views but
NOT when leaving category_select; and it leaves the search state — active
flag, query and filtered indices — entirely untouched. -/
theorem c9_theorem (s : TUI) :
    (s.current_view = View.venvDetail →
      TUI.go_back s = { s with
        current_view := View.venvs
        selected_venv := none
        cursor := 0
        scroll_offset := 0
        selected_items := []
        breadcrumb := s.breadcrumb.dropLast }) ∧
    ((s.current_view = View.interpreters ∨ s.current_view = View.venvs ∨
        s.current_view = View.analysis) →
      TUI.go_back s = { s with
        current_view := View.categorySelect
        cursor := 0
        scroll_offset := 0
        selected_items := []
        breadcrumb := [] }) ∧
    (s.current_view = View.categorySelect →
      TUI.go_back s = { s with
        current_view := View.modeSelect
        mode := none
        cursor := 0
        scroll_offset := 0
        breadcrumb := [] }) ∧
    (s.current_view = View.modeSelect →
      TUI.go_back s = { s with
        mode := none
        cursor := 0
        breadcrumb := [] }) := by
  refine ⟨?_, ?_, ?_, ?_⟩
  · intro h; simp [TUI.go_back, h]
  · intro h; rcases h with h | h | h <;> simp [TUI.go_back, h]
  · intro h; simp [TUI.go_back, h]
  · intro h; simp [TUI.go_back, h]

/-- C9 (witness): the back transition out of a filtered venvs view at the
concrete state `c9State`. -/
theorem c9_witness :
    TUI.go_back c9State = { c9State with
      current_view := View.categorySelect
      cursor := 0
      scroll_offset := 0
      selected_items := []
      breadcrumb := [] } :=
  ((c9_theorem c9State).2.1) (Or.inr (Or.inl rfl))

/-- C1: `_toggle_selection` flips membership of `self.cursor` — the VISIBLE
position — in `selected_items`, without mapping through `filtered_items`; a
subsequent confirmed delete then consumes those indices against the
UNFILTERED list.  At `c1State` (delete mode, venvs view, active filter whose
`filtered_items = [5]`, cursor at visible position 0) marking adds 0 (not 5)
to the selection, and the delete batch removes the venv at unfiltered index 0
while the venv the operator was looking at (index 5) survives.  This
contradicts the spec, and also the code's own consumers of `selected_items`:
the renderers (broomstick.py lines 918 and 974) map a visible row back
through `filtered_items` before testing membership, which is only coherent if
the selection stores unfiltered indices. -/
theorem c1_theorem :
    (TUI.toggle_selection c1State).selected_items = [0] ∧
    (TUI.confirm_delete (fun _ => true) true
        (TUI.toggle_selection c1State)).venvs.map Venv.path =
      ["/h/p1/.venv", "/h/p2/.venv", "/h/p3/.venv", "/h/p4/.venv", "/h/p5/.venv"] := by
  refine ⟨by decide, by decide⟩

/-- C10: the derived project name of an environment equals the parent
directory's name when the environment directory's own basename is one of the
fixed names `.venv, venv, env, .env, virtualenv`, and the basename itself
otherwise; and drilling into a venv (`_handle_enter` on the venvs view in
modes list/explore/package) pushes exactly this derived name onto the
breadcrumb. -/
theorem c10_theorem (path : String) (size : Nat) (pkgs : List Pkg) (s : TUI) :
    (2 ≤ (pathParts path).length →
      (mkVenv path size pkgs).project_name =
        if (pathParts path).getLast?.getD "" ∈ PROJECT_VENV_NAMES
        then ((pathParts path)[(pathParts path).length - 2]?).getD ""
        else (pathParts path).getLast?.getD "") ∧
    (s.current_view = View.venvs →
      (s.mode = some Mode.list ∨ s.mode = some Mode.explore ∨ s.mode = some Mode.package) →
      ∀ venv, s.venvs[s.cursor]? = some venv →
        TUI.handle_enter s = some { s with
          current_view := View.venvDetail
          selected_venv := some venv
          breadcrumb := s.breadcrumb ++ [venv.project_name]
          cursor := 0
          scroll_offset := 0
          selected_items := [] }) := by
  constructor
  · intro h2
    simp only [mkVenv, get_project_name]
    by_cases hin : (pathParts path).getLast?.getD "" ∈ PROJECT_VENV_NAMES
    · simp only [hin, if_true, dropLast_getLast?_getElem? _ h2]
    · simp only [hin, if_false]
  · intro hv hm venv hvc
    simp only [TUI.handle_enter, hv]
    rw [if_pos hm]
    simp [hvc]

/-- C10 (witness): the project name of `/home/u/proj/.venv` is derived via its
parent component, and drilling into the venv under the cursor of `c10State`
pushes that venv's project name. -/
theorem c10_witness :
    (mkVenv "/home/u/proj/.venv" 5 []).project_name =
      (if (pathParts "/home/u/proj/.venv").getLast?.getD "" ∈ PROJECT_VENV_NAMES
       then ((pathParts "/home/u/proj/.venv")[(pathParts "/home/u/proj/.venv").length - 2]?).getD ""
       else (pathParts "/home/u/proj/.venv").getLast?.getD "") ∧
    TUI.handle_enter c10State = some { c10State with
      current_view := View.venvDetail
      selected_venv := some (sampleVenv "/h/p1/.venv")
      breadcrumb := c10State.breadcrumb ++ [(sampleVenv "/h/p1/.venv").project_name]
      cursor := 0
      scroll_offset := 0
      selected_items := [] } :=
  ⟨( c10_theorem "/home/u/proj/.venv" 5 [] c10State).1 (by decide),
   ( c10_theorem "/home/u/proj/.venv" 5 [] c10State).2 rfl (Or.inr (Or.inr rfl))
     (sampleVenv "/h/p1/.venv") rfl⟩

/-- C5 (counterexample): the claim says cursor_move clamps the cursor to
`[0, N-1]` of the possibly FILTERED list.  `_adjust_scroll_for_view` passes
the UNFILTERED list length as `max_items`: at `c5cState` (2 venvs, active
filter with one visible item) a single KEY_DOWN leaves the cursor at 1,
outside `[0, 0]` for the filtered count 1. -/
theorem c5_counterexample :
    (TUI.key_down 20 c5cState).cursor = 1 ∧
    (TUI.key_down 20 c5cState).search_mode = true ∧
    (TUI.key_down 20 c5cState).filtered_items.length = 1 ∧
    ¬ ((TUI.key_down 20 c5cState).cursor < (TUI.key_down 20 c5cState).filtered_items.length) := by
  refine ⟨by decide, by decide, by decide, by decide⟩

/-- C5 (amended): after any sequence of cursor_move and set_search events,
with N the UNFILTERED item count of the current view's backing list (the
count `_adjust_scroll_for_view` uses, filter or no filter) and
H = screen_height - 10 ≥ 1 the visible height, the state keeps
`scroll_offset ∈ [0, max(0, N-H)]`, `cursor ∈ [scroll_offset,
scroll_offset+H-1]` and `cursor ∈ [0, N-1]`; the cursor is clamped to the
unfiltered list, not the filtered one. -/
theorem c5_theorem (sh : Nat) (s : TUI) (evs : List Ev) (hsh : 11 ≤ sh)
    (hN : 1 ≤ s.max_items_for_view) (hInv : ScrollInv sh s) :
    ScrollInv sh (evs.foldl (TUI.step sh) s) := by
  induction evs generalizing s with
  | nil => exact hInv
  | cons e evs ih =>
    simp only [List.foldl_cons]
    exact ih (TUI.step sh s e) (by rw [step_view_eq]; exact hN)
      (scrollInv_step sh s e hsh hN hInv)

/-- C5 (witness): the invariant after a concrete down/search/up sequence from
a freshly-entered one-venv list view on a 21-row screen. -/
theorem c5_witness :
    ScrollInv 21 ([Ev.down, Ev.search "p", Ev.up].foldl (TUI.step 21) c5wState) :=
  c5_theorem 21 c5wState [Ev.down, Ev.search "p", Ev.up] (by omega) (by decide)
    (by unfold ScrollInv; refine ⟨by decide, by decide, by decide, by decide⟩)

/-- C6: the recursive scan honours its depth bound and treats environments
as leaves.  With `max_depth = 1` (fuel 2) rooted at `/home/u` it reports
`/home/u/a/.venv` and nothing else — in particular not `/home/u/a/b/.venv`;
every reported path is at most `fuel` components below the scan root; and on
any well-formed tree (distinct sibling names) no reported path extends
another reported path, because the scan never recurses into a directory that
itself qualifies as an environment. -/
theorem c6_theorem :
    (scanFuel 2 demoRoot ["home", "u"] = [["home", "u", "a", ".venv"]]) ∧
    (∀ (fuel : Nat) (t : FTree) (base p : List String),
      p ∈ scanFuel fuel t base → p.length ≤ base.length + fuel) ∧
    (∀ (fuel : Nat) (t : FTree) (base : List String), wfFuel fuel t = true →
      PrefixFree (scanFuel fuel t base)) :=
  ⟨by decide, scanFuel_length_le, scanFuel_prefixFree⟩

/-- C6 (witness): the depth bound and prefix-freedom at the concrete scenario
tree. -/
theorem c6_witness :
    (["home", "u", "a", ".venv"] : List String).length ≤
      (["home", "u"] : List String).length + 2 ∧
    PrefixFree (scanFuel 2 demoRoot ["home", "u"]) :=
  ⟨c6_theorem.2.1 2 demoRoot ["home", "u"] ["home", "u", "a", ".venv"] (by decide),
   c6_theorem.2.2 2 demoRoot ["home", "u"] (by decide)⟩

/-- C2: a confirmed delete batch never touches a protected environment and
never aborts.  The surviving list equals `pruneFrom`: exactly the selected,
in-bounds, NON-system positions with successful removal disappear — so every
protected (is_system) record stays in the collection, all other selected
items are still processed, and `rmtree` is only ever attempted on non-system
paths.  `ok` is the success oracle of `shutil.rmtree`; the descending
processing order of `_confirm_delete` makes the selected positions refer to
the original list. -/
theorem c2_theorem (ok : String → Bool) (s : TUI)
    (hview : s.current_view = View.venvs) (hnodup : s.selected_items.Nodup) :
    (TUI.confirm_delete ok true s).venvs = pruneFrom ok s.selected_items 0 s.venvs ∧
    (∀ v ∈ s.venvs, is_system_path v.path = true →
      v ∈ (TUI.confirm_delete ok true s).venvs) ∧
    (∀ p ∈ (deleteBatch s.current_view ok s.selected_items s.venvs).2,
      is_system_path p = false) := by
  have hmain : (TUI.confirm_delete ok true s).venvs =
      pruneFrom ok s.selected_items 0 s.venvs := by
    unfold TUI.confirm_delete
    split
    · rename_i hemp
      have hsel : s.selected_items = [] := by
        cases hsl : s.selected_items
        · rfl
        · rw [hsl] at hemp; simp at hemp
      rw [hsel]
      exact (prune_of_all_lt ok [] s.venvs 0 (by simp)).symm
    · rw [if_pos rfl]
      show (deleteBatch s.current_view ok s.selected_items s.venvs).1 = _
      rw [hview]
      unfold deleteBatch
      rw [deleteBatch_go ok (sortDesc s.selected_items) s.venvs []
        (sortDesc_pairwise_gt _ hnodup)]
      exact prune_congr ok (sortDesc s.selected_items) s.selected_items
        (fun x => mem_sortDesc x _) s.venvs 0
  refine ⟨hmain, ?_, ?_⟩
  · intro v hv hsys
    rw [hmain]
    exact pruneFrom_keeps_system ok s.selected_items s.venvs 0 v hv hsys
  · intro p hp
    unfold deleteBatch at hp
    exact deleteBatch_attempted s.current_view ok (sortDesc s.selected_items)
      (s.venvs, []) (by simp) p hp

/-- C2 (witness): the concrete batch at `c2State` — the protected venv at
index 0 is skipped, the selected project venv at index 1 is removed. -/
theorem c2_witness :
    (TUI.confirm_delete (fun _ => true) true c2State).venvs =
      pruneFrom (fun _ => true) c2State.selected_items 0 c2State.venvs :=
  (c2_theorem (fun _ => true) c2State rfl (by decide)).1

end Broomstick
